import Mathlib

/-!
Shallow embedding of `src/simulation.py` (class `GraphSimulation`).

Modelling conventions:
* Python dicts keyed by strings are modelled as total functions `String → _`
  together with the ordered key list (`node_ids`); dicts keyed by person ids
  are modelled as total functions `ℕ → _` together with the insertion-order
  key list (`person_order`).  Every key the source ever reads is in the key
  list, so the total-function default is never observed.
* Python floats are modelled as exact rationals `ℚ`.
* The process-global `random` module stream is made explicit as a `Rng`
  value threaded through every call, one draw per `random.choice` /
  `random.random` style call (and one draw per element picked by
  `random.shuffle`).
* `random.choice` raises `IndexError` on an empty list.  Starting from a
  constructed simulation a draw happens only when a person exists, which
  (construction having succeeded) implies a household node and hence a
  nonempty `node_ids` exists, and `turn1` returns early when it has no
  destinations; so the empty-list case is unreachable and the draw is
  modelled totally with `List.getD`.
* The `int(...)` truncation of CPython is modelled by `pyTrunc`
  (truncation toward zero); `i % 0` raising `ZeroDivisionError` inside
  `_initialize_population` is modelled by returning `Except.error`.
* All `print` calls and the matplotlib/pyvis visualisation methods are
  pure output and are not modelled.
-/

namespace CitySim

/-- Disease status of a person; the source uses the strings
`'infected'` and `'non_infected'`. -/
inductive Status where
  | infected
  | non_infected
deriving DecidableEq

/-- Explicit random stream replacing the process-global `random` module.
`ints n` drives the n-th index-style draw (`random.choice`, shuffle picks;
the index is taken modulo the list length) and `floats n` the n-th
`random.random()` draw (a rational intended in `[0,1)`); `pos` counts
the draws consumed so far.  One shared counter models one shared stream. -/
structure Rng where
  ints : ℕ → ℕ
  floats : ℕ → ℚ
  pos : ℕ

/-- Consume one index-style draw. -/
def nextInt (r : Rng) : ℕ × Rng := (r.ints r.pos, ⟨r.ints, r.floats, r.pos + 1⟩)

/-- Consume one `random.random()` draw. -/
def nextFloat (r : Rng) : ℚ × Rng := (r.floats r.pos, ⟨r.ints, r.floats, r.pos + 1⟩)

/-- A location node (`class Node`): its dict key/`id`, category code, the
`population` dict split into its two counters, and the `people` dict as an
insertion-ordered association list person-id ↦ status-at-insertion. -/
structure NodeData where
  id : String
  category : String
  popInfected : ℕ
  popNonInfected : ℕ
  people : List (ℕ × Status)
deriving DecidableEq

/-- The state of a `GraphSimulation` instance.  Persons are numbered `0,1,…`
(the source's string ids `"P0","P1",…`); `person_order` is the shared
insertion order of the per-person dicts (the shuffled order in which
`_initialize_population` inserts them). -/
structure Sim where
  nodes : String → NodeData
  node_ids : List String
  household_ids : List String
  school_ids : List String
  office_ids : List String
  work_school_ids : List String
  other_ids : List String
  person_to_household : ℕ → String
  person_location : ℕ → String
  person_status : ℕ → Status
  person_order : List ℕ
  simulation_history : List (ℕ × ℕ)

/-- Constructor arguments of `GraphSimulation.__init__`; `category_counts`
is the insertion-ordered dict category-code ↦ node count. -/
structure Config where
  category_counts : List (String × ℕ)
  total_population : ℕ
  initial_infected_percentage : ℚ

/-- CPython `int(...)` on a float/number: truncation toward zero. -/
def pyTrunc (q : ℚ) : ℤ := if 0 ≤ q then ⌊q⌋ else -⌊-q⌋

/-- `NODE_CATEGORIES`-style module constant `CATEGORY_COUNTS`. -/
def CATEGORY_COUNTS : List (String × ℕ) :=
  [("h", 40), ("sh", 2), ("p", 1), ("s", 2), ("r", 2), ("c", 1), ("t", 1), ("H", 1), ("o", 2)]

/-- Module constant `TOTAL_POPULATION`. -/
def TOTAL_POPULATION : ℕ := 100

/-- Module constant `INITIAL_INFECTED_PERCENTAGE`. -/
def INITIAL_INFECTED_PERCENTAGE : ℚ := 1 / 10

/-- Module constant `SIMULATION_DAYS`. -/
def SIMULATION_DAYS : ℕ := 3

/-- The node ids `f"{category}{i+1}"` created for one category by
`_initialize_nodes`. -/
def catNodeIds (cat : String) (count : ℕ) : List String :=
  (List.range count).map (fun i => cat ++ toString (i + 1))

/-- `self.node_ids`: all node ids in dict insertion order. -/
def allNodeIds (cc : List (String × ℕ)) : List String :=
  cc.flatMap (fun pr => catNodeIds pr.1 pr.2)

/-- A fresh node, as built by `Node.__init__`. -/
def emptyNode (nid cat : String) : NodeData := ⟨nid, cat, 0, 0, []⟩

/-- Dict value for a key that was never inserted; never observed by the
modelled code paths. -/
def junkNode : NodeData := ⟨"", "", 0, 0, []⟩

/-- The `self.nodes` dict built by `_initialize_nodes`, as a function. -/
def initNodesFun (cc : List (String × ℕ)) : String → NodeData :=
  cc.foldl
    (fun f pr => (catNodeIds pr.1 pr.2).foldl
      (fun g nid => Function.update g nid (emptyNode nid pr.1)) f)
    (fun _ => junkNode)

/-- `self.household_ids` (nodes of category `'h'`, dict order). -/
def householdIdsOf (cfg : Config) : List String :=
  (allNodeIds cfg.category_counts).filter
    (fun nid => (initNodesFun cfg.category_counts nid).category == "h")

/-- `self.school_ids`. -/
def schoolIdsOf (cfg : Config) : List String :=
  (allNodeIds cfg.category_counts).filter
    (fun nid => (initNodesFun cfg.category_counts nid).category == "s")

/-- `self.office_ids`. -/
def officeIdsOf (cfg : Config) : List String :=
  (allNodeIds cfg.category_counts).filter
    (fun nid => (initNodesFun cfg.category_counts nid).category == "o")

/-- `self.other_ids`. -/
def otherIdsOf (cfg : Config) : List String :=
  (allNodeIds cfg.category_counts).filter
    (fun nid => !((householdIdsOf cfg ++ (schoolIdsOf cfg ++ officeIdsOf cfg)).contains nid))

/-- `num_infected = int(self.total_population * self.initial_infected_percentage)`. -/
def num_infectedZ (cfg : Config) : ℤ :=
  pyTrunc ((cfg.total_population : ℚ) * cfg.initial_infected_percentage)

/-- `num_infected` clamped to ℕ for building the person list. -/
def num_infectedN (cfg : Config) : ℕ := (num_infectedZ cfg).toNat

/-- `num_non_infected = self.total_population - num_infected`; a negative
value makes `range(...)` empty, which `Int.toNat` models exactly. -/
def num_non_infectedN (cfg : Config) : ℕ :=
  ((cfg.total_population : ℤ) - num_infectedZ cfg).toNat

/-- `person_list` before shuffling: `num_infected` infected persons with ids
`0..`, then the non-infected persons with ids `num_infected + i`. -/
def personListOf (cfg : Config) : List (ℕ × Status) :=
  (List.range (num_infectedN cfg)).map (fun i => (i, Status.infected)) ++
    (List.range (num_non_infectedN cfg)).map (fun i => (num_infectedN cfg + i, Status.non_infected))

/-- One pass of `random.shuffle` modelled as repeated random removal
(pick a random index, emit that element, recurse on the rest); the fuel
argument is the list length, which bounds the recursion. -/
def shuffleGo : ℕ → List (ℕ × Status) → Rng → List (ℕ × Status) × Rng
  | 0, l, r => (l, r)
  | _ + 1, [], r => ([], r)
  | fuel + 1, a :: t, r =>
    let d := nextInt r
    let i := d.1 % (a :: t).length
    let x := (a :: t).getD i a
    let rest := (a :: t).eraseIdx i
    let res := shuffleGo fuel rest d.2
    (x :: res.1, res.2)

/-- `random.shuffle(person_list)` (returning the permuted list). -/
def shuffle (l : List (ℕ × Status)) (r : Rng) : List (ℕ × Status) × Rng :=
  shuffleGo l.length l r

/-- Add one person to a node: `node.population[status] += 1` and
`node.people[person_id] = status`. -/
def nodeAdd (f : String → NodeData) (nid : String) (p : ℕ) (st : Status) :
    String → NodeData :=
  Function.update f nid
    (let nd := f nid
     ⟨nd.id, nd.category,
      nd.popInfected + (if st = Status.infected then 1 else 0),
      nd.popNonInfected + (if st = Status.infected then 0 else 1),
      nd.people ++ [(p, st)]⟩)

/-- The per-person mutable state built by the `_initialize_population`
assignment loop: the nodes dict plus the three per-person dicts. -/
structure AState where
  nodes : String → NodeData
  toH : ℕ → String
  loc : ℕ → String
  stat : ℕ → Status

/-- One iteration of the `for i, person in enumerate(person_list)` loop:
assign household `household_ids[i % len(household_ids)]`, record household,
location and status, and add the person to the household node. -/
def assignStep (hh : List String) (i : ℕ) (st : AState) (p : ℕ) (ps : Status) : AState :=
  let hid := hh.getD (i % hh.length) ""
  ⟨nodeAdd st.nodes hid p ps,
   Function.update st.toH p hid,
   Function.update st.loc p hid,
   Function.update st.stat p ps⟩

/-- The assignment loop of `_initialize_population`; `i % 0` raises
`ZeroDivisionError` in CPython, modelled as `Except.error` on the first
iteration with an empty `household_ids`. -/
def assignGo (hh : List String) : List (ℕ × Status) → ℕ → AState → Except String AState
  | [], _, st => .ok st
  | pr :: rest, i, st =>
    if hh.length = 0 then .error "ZeroDivisionError: integer division or modulo by zero"
    else assignGo hh rest (i + 1) (assignStep hh i st pr.1 pr.2)

/-- Total version of the assignment loop (the branch where `household_ids`
is nonempty, or the person list empty), used to state what a successful
construction produces. -/
def assignPure (hh : List String) : List (ℕ × Status) → ℕ → AState → AState
  | [], _, st => st
  | pr :: rest, i, st => assignPure hh rest (i + 1) (assignStep hh i st pr.1 pr.2)

/-- Initial `AState`: the freshly built nodes dict and empty person dicts
(the defaults are never observed for persons outside `person_order`). -/
def initAState (cfg : Config) : AState :=
  ⟨initNodesFun cfg.category_counts, fun _ => "", fun _ => "", fun _ => Status.non_infected⟩

/-- The simulation `GraphSimulation(cfg)` constructs when the assignment
loop does not raise: `_initialize_nodes` followed by the successful branch
of `_initialize_population`. -/
def mkSimPure (cfg : Config) (r : Rng) : Sim × Rng :=
  let sh := shuffle (personListOf cfg) r
  let st := assignPure (householdIdsOf cfg) sh.1 0 (initAState cfg)
  (⟨st.nodes,
    allNodeIds cfg.category_counts,
    householdIdsOf cfg,
    schoolIdsOf cfg,
    officeIdsOf cfg,
    schoolIdsOf cfg ++ officeIdsOf cfg,
    otherIdsOf cfg,
    st.toH, st.loc, st.stat,
    sh.1.map Prod.fst,
    []⟩, sh.2)

/-- `GraphSimulation.__init__`: build the nodes, shuffle the person list and
run the assignment loop; the loop's `ZeroDivisionError` aborts construction. -/
def mkSimulation (cfg : Config) (r : Rng) : Except String (Sim × Rng) :=
  let sh := shuffle (personListOf cfg) r
  match assignGo (householdIdsOf cfg) sh.1 0 (initAState cfg) with
  | .error e => .error e
  | .ok st =>
    .ok (⟨st.nodes,
      allNodeIds cfg.category_counts,
      householdIdsOf cfg,
      schoolIdsOf cfg,
      officeIdsOf cfg,
      schoolIdsOf cfg ++ officeIdsOf cfg,
      otherIdsOf cfg,
      st.toH, st.loc, st.stat,
      sh.1.map Prod.fst,
      []⟩, sh.2)

/-- The `category_factors` table of `calculate_infection_chance`
(the source's float literals as exact rationals), with its `.get(..., 0.5)`
default. -/
def categoryFactor (cat : String) : ℚ :=
  if cat = "h" then 1 / 2
  else if cat = "sh" then 2 / 5
  else if cat = "p" then 1 / 10
  else if cat = "s" then 7 / 10
  else if cat = "r" then 3 / 5
  else if cat = "c" then 3 / 10
  else if cat = "t" then 1 / 2
  else if cat = "H" then 9 / 10
  else if cat = "o" then 3 / 5
  else 1 / 2

/-- `calculate_infection_chance(self, node)`: the source's placeholder
equation `(infected / total) * category_factor`, capped at 1, and 0 for an
empty node. -/
def calculate_infection_chance (node : NodeData) : ℚ :=
  let infected := node.popInfected
  let total := node.popInfected + node.popNonInfected
  if total = 0 then 0
  else min ((infected : ℚ) / (total : ℚ) * categoryFactor node.category) 1

/-- Reset every node's `population` counters and `people` dict, as the
`for node in self.nodes.values()` clearing loops do (keys never observed by
the source are already empty and stay so). -/
def clearNodes (f : String → NodeData) : String → NodeData :=
  fun nid =>
    let nd := f nid
    ⟨nd.id, nd.category, 0, 0, []⟩

/-- One person's movement in `turn1`/`turn2`: draw a destination from
`dests`, update `person_location` and the destination node. -/
def moveStep (dests : List String) (acc : Sim × Rng) (p : ℕ) : Sim × Rng :=
  let d := nextInt acc.2
  let dest := dests.getD (d.1 % dests.length) ""
  let s := acc.1
  ({ s with
      person_location := Function.update s.person_location p dest,
      nodes := nodeAdd s.nodes dest p (s.person_status p) }, d.2)

/-- `turn1`: clear all nodes, then (unless there is no school or office, in
which case movement is skipped) move every person — iterating
`person_to_household.items()` in insertion order — to a random school or
office.  The printed `movement_counts` bookkeeping has no effect on state. -/
def turn1 (s : Sim) (r : Rng) : Sim × Rng :=
  let s1 : Sim := { s with nodes := clearNodes s.nodes }
  let dests := s.school_ids ++ s.office_ids
  if dests.isEmpty then (s1, r)
  else s1.person_order.foldl (moveStep dests) (s1, r)

/-- `turn2`: clear all nodes, then move every person — iterating
`person_location.items()` in insertion order — to a random node. -/
def turn2 (s : Sim) (r : Rng) : Sim × Rng :=
  let s1 : Sim := { s with nodes := clearNodes s.nodes }
  s1.person_order.foldl (moveStep s1.node_ids) (s1, r)

/-- One person's movement in `turn3`: back to `person_to_household`. -/
def homeStep (s : Sim) (p : ℕ) : Sim :=
  let dest := s.person_to_household p
  { s with
      person_location := Function.update s.person_location p dest,
      nodes := nodeAdd s.nodes dest p (s.person_status p) }

/-- `turn3`: clear all nodes, then return every person to its original
household; no random draw is made. -/
def turn3 (s : Sim) (r : Rng) : Sim × Rng :=
  let s1 : Sim := { s with nodes := clearNodes s.nodes }
  (s1.person_order.foldl homeStep s1, r)

/-- `_recalculate_node_populations`: clear all nodes and re-populate them
from `person_location`/`person_status`, iterating persons in insertion
order. -/
def recalculate_node_populations (s : Sim) : Sim :=
  { s with
      nodes := s.person_order.foldl
        (fun f p => nodeAdd f (s.person_location p) p (s.person_status p))
        (clearNodes s.nodes) }

/-- The inner infection loop of `apply_infection`: one `random.random()`
draw per listed non-infected person; a draw below the chance sets the
person's status to `'infected'`. -/
def infectPeople (chance : ℚ) : List ℕ → (ℕ → Status) → Rng → (ℕ → Status) × Rng
  | [], stat, r => (stat, r)
  | p :: rest, stat, r =>
    let d := nextFloat r
    let stat1 := if d.1 < chance then Function.update stat p Status.infected else stat
    infectPeople chance rest stat1 d.2

/-- The per-node body of `apply_infection`'s node loop: skip empty nodes,
compute the chance, list the node's non-infected occupants (statuses as
recorded in `node.people`), skip when there is nobody to infect or the
chance is zero, else run the Bernoulli draws. -/
def infectNodeStep (s : Sim) (acc : (ℕ → Status) × Rng) (nid : String) :
    (ℕ → Status) × Rng :=
  let node := s.nodes nid
  if node.popInfected + node.popNonInfected = 0 then acc
  else
    let chance := calculate_infection_chance node
    let nonInf := (node.people.filter (fun pr => pr.2 == Status.non_infected)).map Prod.fst
    if nonInf.length = 0 ∨ chance = 0 then acc
    else infectPeople chance nonInf acc.1 acc.2

/-- `apply_infection`: iterate the nodes dict (whose populations are not
mutated during the loop), flip statuses stochastically, then
`_recalculate_node_populations`. -/
def apply_infection (s : Sim) (r : Rng) : Sim × Rng :=
  let res := s.node_ids.foldl (infectNodeStep s) (s.person_status, r)
  (recalculate_node_populations { s with person_status := res.1 }, res.2)

/-- `sum(1 for status in self.person_status.values() if status == 'infected')`. -/
def countInfected (s : Sim) : ℕ :=
  (s.person_order.filter (fun p => s.person_status p == Status.infected)).length

/-- The non-infected count over the same dict. -/
def countNonInfected (s : Sim) : ℕ :=
  (s.person_order.filter (fun p => s.person_status p == Status.non_infected)).length

/-- `_record_history(day)`: append `{'day': day, 'total_infected': …}`,
modelled as the pair `(day, total_infected)`. -/
def record_history (day : ℕ) (s : Sim) : Sim :=
  { s with simulation_history := s.simulation_history ++ [(day, countInfected s)] }

/-- `turn1` on a state-stream pair. -/
def stepT1 (sr : Sim × Rng) : Sim × Rng := turn1 sr.1 sr.2

/-- `turn2` on a state-stream pair. -/
def stepT2 (sr : Sim × Rng) : Sim × Rng := turn2 sr.1 sr.2

/-- `turn3` on a state-stream pair. -/
def stepT3 (sr : Sim × Rng) : Sim × Rng := turn3 sr.1 sr.2

/-- `apply_infection` on a state-stream pair. -/
def stepInf (sr : Sim × Rng) : Sim × Rng := apply_infection sr.1 sr.2

/-- The state inside a day of `run_simulation` right after `turn3`
(movement phases `turn1`/`turn2`/`turn3` in order, an infection application
after each movement, the last one still pending). -/
def afterHomePhase (sr : Sim × Rng) : Sim × Rng :=
  stepT3 (stepInf (stepT2 (stepInf (stepT1 sr))))

/-- One iteration of the `for day in range(1, days + 1)` loop of
`run_simulation`: the three movement phases, each immediately followed by
`apply_infection`, then `_record_history(day)`. -/
def dayBody (day : ℕ) (sr : Sim × Rng) : Sim × Rng :=
  let g := stepInf (afterHomePhase sr)
  (record_history day g.1, g.2)

/-- The day loop of `run_simulation`, counting `k` remaining days starting
at day number `day`. -/
def runFrom : Sim × Rng → ℕ → ℕ → Sim × Rng
  | sr, _, 0 => sr
  | sr, day, k + 1 => runFrom (dayBody day sr) (day + 1) k

/-- `run_simulation(days)`: record the initial state as day 0, then run the
day loop for days `1..days`. -/
def run_simulation (s : Sim) (r : Rng) (days : ℕ) : Sim × Rng :=
  runFrom (record_history 0 s, r) 1 days

/-- The observable operations `run_simulation` performs, for stating the
phase-ordering claim. -/
inductive PhaseEvent where
  | moveWork
  | moveSocial
  | moveHome
  | infect
  | record
deriving DecidableEq

/-- Run one operation and append its event tag to the trace. -/
def tagged (e : PhaseEvent) (f : Sim × Rng → Sim × Rng)
    (x : (Sim × Rng) × List PhaseEvent) : (Sim × Rng) × List PhaseEvent :=
  (f x.1, x.2 ++ [e])

/-- `dayBody` instrumented with the event of each operation, in the order
the source performs them. -/
def dayBodyEv (day : ℕ) (x : (Sim × Rng) × List PhaseEvent) :
    (Sim × Rng) × List PhaseEvent :=
  tagged .record (fun sr => (record_history day sr.1, sr.2))
    (tagged .infect stepInf
      (tagged .moveHome stepT3
        (tagged .infect stepInf
          (tagged .moveSocial stepT2
            (tagged .infect stepInf
              (tagged .moveWork stepT1 x))))))

/-- The day loop, instrumented. -/
def runFromEv : (Sim × Rng) × List PhaseEvent → ℕ → ℕ → (Sim × Rng) × List PhaseEvent
  | x, _, 0 => x
  | x, day, k + 1 => runFromEv (dayBodyEv day x) (day + 1) k

/-- `run_simulation`, instrumented: the initial `_record_history(0)` then
the day loop. -/
def run_simulationEv (s : Sim) (r : Rng) (days : ℕ) :
    (Sim × Rng) × List PhaseEvent :=
  runFromEv ((record_history 0 s, r), [.record]) 1 days

/-- The operations one day of `run_simulation` performs, in order. -/
def dayPattern : List PhaseEvent :=
  [.moveWork, .infect, .moveSocial, .infect, .moveHome, .infect, .record]

/-- The occupants of a node according to the per-person dicts: the persons
whose current location is that node, in insertion order. -/
def occupants (s : Sim) (nid : String) : List ℕ :=
  s.person_order.filter (fun p => s.person_location p == nid)

/-- Occupancy consistency: every node's `people` dict holds exactly the
persons located there (with their current statuses), and the two
`population` counters count the occupants of each status. -/
def occConsistent (s : Sim) : Prop :=
  ∀ nid : String,
    (s.nodes nid).people =
      (occupants s nid).map (fun p => (p, s.person_status p)) ∧
    (s.nodes nid).popInfected =
      (s.person_order.filter
        (fun p => s.person_location p == nid && s.person_status p == Status.infected)).length ∧
    (s.nodes nid).popNonInfected =
      (s.person_order.filter
        (fun p => s.person_location p == nid && s.person_status p == Status.non_infected)).length

/-- Relation between a status map before and after one step: each person is
unchanged, or was `non_infected` and became `infected`. -/
def statusStep (f g : ℕ → Status) : Prop :=
  ∀ p : ℕ, g p = f p ∨ (f p = Status.non_infected ∧ g p = Status.infected)

/-- Modelled from the spec: the Wells-Riley quanta dose `n(t)` of §4.3.
The Wells-Riley `InfectionModel` (the `Simulation` class that `app.py` and
`app2.py` import from `simulation.py`) is not present under `src/`, whose
`simulation.py` holds only the self-described placeholder
`calculate_infection_chance`; this definition follows the spec's formula
`n(t) = (ρ·N_I·E)/(V·λ) · [ t − (1 − e^(−λ·t)) / λ ]`. -/
noncomputable def quantaDose (ρ NI E V lam t : ℝ) : ℝ :=
  (ρ * NI * E) / (V * lam) * (t - (1 - Real.exp (-(lam * t))) / lam)

/-- Modelled from the spec: the per-susceptible infection probability of
§4.3, `P = 1 − e^(−γ·n(t))`, with the spec's guard "if there are … no
infectious agents, or λ = 0, probability is 0". -/
noncomputable def infectionProbability (γ ρ NI E V lam t : ℝ) : ℝ :=
  if NI = 0 ∨ lam = 0 then 0
  else 1 - Real.exp (-(γ * quantaDose ρ NI E V lam t))

/-- A config with three nodes (one household, one school, one office) and
one person, used for concrete instances. -/
def cfgABC : Config := ⟨[("h", 1), ("s", 1), ("o", 1)], 1, 0⟩

/-- A config with one household and two persons, none infected. -/
def cfgH2 : Config := ⟨[("h", 1)], 2, 0⟩

/-- A config with one office node, no households and zero population. -/
def cfgNoHH : Config := ⟨[("o", 1)], 0, 0⟩

/-- A config with no households but one person. -/
def cfgNoHHPop : Config := ⟨[("o", 1)], 1, 0⟩

/-- A random stream that always yields index 0 and float 0. -/
def rngZero : Rng := ⟨fun _ => 0, fun _ => 0, 0⟩

/-- A random stream that always yields index 1 and float 0. -/
def rngOne : Rng := ⟨fun _ => 1, fun _ => 0, 0⟩

/-- The simulation constructed from `cfgABC` with `rngZero`. -/
def simABC : Sim := (mkSimPure cfgABC rngZero).1

/-- The simulation constructed from `cfgH2` with `rngZero`. -/
def simH2 : Sim := (mkSimPure cfgH2 rngZero).1

/-- The fields of a `Sim` no operation after construction ever mutates
(id lists, the person insertion order and the home assignment), stated as
"t has the same values as s". -/
def sameCore (s t : Sim) : Prop :=
  t.node_ids = s.node_ids ∧ t.household_ids = s.household_ids ∧
  t.school_ids = s.school_ids ∧ t.office_ids = s.office_ids ∧
  t.person_order = s.person_order ∧ t.person_to_household = s.person_to_household

theorem foldl_inv {β γ : Type _} (f : β → γ → β) (P : β → Prop)
    (h : ∀ b c, P b → P (f b c)) : ∀ (l : List γ) (b : β), P b → P (l.foldl f b)
  | [], _, hb => hb
  | c :: l, b, hb => foldl_inv f P h l (f b c) (h b c hb)

theorem sameCore_refl (s : Sim) : sameCore s s := ⟨rfl, rfl, rfl, rfl, rfl, rfl⟩

theorem sameCore_trans {s t u : Sim} (hst : sameCore s t) (htu : sameCore t u) :
    sameCore s u :=
  ⟨htu.1.trans hst.1, htu.2.1.trans hst.2.1, htu.2.2.1.trans hst.2.2.1,
   htu.2.2.2.1.trans hst.2.2.2.1, htu.2.2.2.2.1.trans hst.2.2.2.2.1,
   htu.2.2.2.2.2.trans hst.2.2.2.2.2⟩

theorem turn1_keeps (s : Sim) (r : Rng) :
    sameCore s (turn1 s r).1 ∧ (turn1 s r).1.person_status = s.person_status ∧
      (turn1 s r).1.simulation_history = s.simulation_history := by
  have base : ∀ r1 : Rng,
      sameCore s ({ s with nodes := clearNodes s.nodes }, r1).1 ∧
        ({ s with nodes := clearNodes s.nodes }, r1).1.person_status = s.person_status ∧
        ({ s with nodes := clearNodes s.nodes }, r1).1.simulation_history =
          s.simulation_history :=
    fun _ => ⟨sameCore_refl s, rfl, rfl⟩
  simp only [turn1]
  split
  · exact base r
  · exact foldl_inv (moveStep _)
      (fun sr : Sim × Rng => sameCore s sr.1 ∧ sr.1.person_status = s.person_status ∧
        sr.1.simulation_history = s.simulation_history)
      (fun b c hb => hb) _ _ ⟨⟨rfl, rfl, rfl, rfl, rfl, rfl⟩, rfl, rfl⟩

theorem turn2_keeps (s : Sim) (r : Rng) :
    sameCore s (turn2 s r).1 ∧ (turn2 s r).1.person_status = s.person_status ∧
      (turn2 s r).1.simulation_history = s.simulation_history := by
  simp only [turn2]
  exact foldl_inv (moveStep _)
    (fun sr : Sim × Rng => sameCore s sr.1 ∧ sr.1.person_status = s.person_status ∧
      sr.1.simulation_history = s.simulation_history)
    (fun b c hb => hb) _ _ ⟨⟨rfl, rfl, rfl, rfl, rfl, rfl⟩, rfl, rfl⟩

theorem turn3_keeps (s : Sim) (r : Rng) :
    sameCore s (turn3 s r).1 ∧ (turn3 s r).1.person_status = s.person_status ∧
      (turn3 s r).1.simulation_history = s.simulation_history := by
  simp only [turn3]
  exact foldl_inv homeStep
    (fun t : Sim => sameCore s t ∧ t.person_status = s.person_status ∧
      t.simulation_history = s.simulation_history)
    (fun b c hb => hb) _ _ ⟨⟨rfl, rfl, rfl, rfl, rfl, rfl⟩, rfl, rfl⟩

theorem recalculate_keeps (s : Sim) :
    sameCore s (recalculate_node_populations s) ∧
      (recalculate_node_populations s).person_status = s.person_status ∧
      (recalculate_node_populations s).person_location = s.person_location ∧
      (recalculate_node_populations s).simulation_history = s.simulation_history :=
  ⟨sameCore_refl s, rfl, rfl, rfl⟩

theorem apply_infection_keeps (s : Sim) (r : Rng) :
    sameCore s (apply_infection s r).1 ∧
      (apply_infection s r).1.person_location = s.person_location ∧
      (apply_infection s r).1.simulation_history = s.simulation_history :=
  ⟨sameCore_refl s, rfl, rfl⟩

theorem record_history_keeps (day : ℕ) (s : Sim) :
    sameCore s (record_history day s) ∧
      (record_history day s).person_status = s.person_status ∧
      (record_history day s).person_location = s.person_location :=
  ⟨sameCore_refl s, rfl, rfl⟩

theorem dayBody_core (day : ℕ) (sr : Sim × Rng) : sameCore sr.1 (dayBody day sr).1 := by
  have h1 := (turn1_keeps sr.1 sr.2).1
  have h2 := (apply_infection_keeps (stepT1 sr).1 (stepT1 sr).2).1
  have h3 := (turn2_keeps (stepInf (stepT1 sr)).1 (stepInf (stepT1 sr)).2).1
  have h4 := (apply_infection_keeps (stepT2 (stepInf (stepT1 sr))).1
    (stepT2 (stepInf (stepT1 sr))).2).1
  have h5 := (turn3_keeps (stepInf (stepT2 (stepInf (stepT1 sr)))).1
    (stepInf (stepT2 (stepInf (stepT1 sr)))).2).1
  have h6 := (apply_infection_keeps (afterHomePhase sr).1 (afterHomePhase sr).2).1
  have h7 := (record_history_keeps day (stepInf (afterHomePhase sr)).1).1
  exact sameCore_trans (sameCore_trans (sameCore_trans (sameCore_trans
    (sameCore_trans (sameCore_trans h1 h2) h3) h4) h5) h6) h7

theorem runFrom_core : ∀ (k day : ℕ) (sr : Sim × Rng),
    sameCore sr.1 (runFrom sr day k).1
  | 0, _, _ => sameCore_refl _
  | k + 1, day, sr =>
    sameCore_trans (dayBody_core day sr) (runFrom_core k (day + 1) (dayBody day sr))

theorem statusStep_refl (f : ℕ → Status) : statusStep f f := fun _ => Or.inl rfl

theorem statusStep_of_eq {f g : ℕ → Status} (h : g = f) : statusStep f g :=
  h ▸ statusStep_refl f

theorem statusStep_trans {f g h : ℕ → Status} (h1 : statusStep f g)
    (h2 : statusStep g h) : statusStep f h := by
  intro p
  rcases h2 p with e2 | ⟨e2a, e2b⟩
  · rcases h1 p with e1 | ⟨e1a, e1b⟩
    · exact Or.inl (e2.trans e1)
    · exact Or.inr ⟨e1a, e2.trans e1b⟩
  · rcases h1 p with e1 | ⟨e1a, e1b⟩
    · exact Or.inr ⟨e1.symm.trans e2a, e2b⟩
    · exact Status.noConfusion (e1b.symm.trans e2a)

theorem statusStep_update_infected (f : ℕ → Status) (p : ℕ) :
    statusStep f (Function.update f p Status.infected) := by
  intro q
  by_cases h : q = p
  · subst h
    rcases hq : f q with _ | _
    · exact Or.inl (Function.update_same q _ f)
    · exact Or.inr ⟨rfl, Function.update_same q _ f⟩
  · exact Or.inl (Function.update_noteq h _ f)

theorem infectPeople_statusStep (chance : ℚ) :
    ∀ (l : List ℕ) (f : ℕ → Status) (r : Rng),
      statusStep f (infectPeople chance l f r).1
  | [], f, _ => statusStep_refl f
  | p :: rest, f, r => by
    simp only [infectPeople]
    split
    · exact statusStep_trans (statusStep_update_infected f p)
        (infectPeople_statusStep chance rest _ _)
    · exact infectPeople_statusStep chance rest f _

theorem infectNodeStep_statusStep (s : Sim) (acc : (ℕ → Status) × Rng) (nid : String) :
    statusStep acc.1 (infectNodeStep s acc nid).1 := by
  simp only [infectNodeStep]
  split
  · exact statusStep_refl _
  · split
    · exact statusStep_refl _
    · exact infectPeople_statusStep _ _ _ _

theorem apply_infection_statusStep (s : Sim) (r : Rng) :
    statusStep s.person_status (apply_infection s r).1.person_status := by
  simp only [apply_infection, recalculate_node_populations]
  exact foldl_inv (infectNodeStep s) (fun acc => statusStep s.person_status acc.1)
    (fun b c hb => statusStep_trans hb (infectNodeStep_statusStep s b c)) _ _
    (statusStep_refl _)

theorem dayBody_statusStep (day : ℕ) (sr : Sim × Rng) :
    statusStep sr.1.person_status (dayBody day sr).1.person_status := by
  have h1 := statusStep_of_eq (turn1_keeps sr.1 sr.2).2.1
  have h2 := apply_infection_statusStep (stepT1 sr).1 (stepT1 sr).2
  have h3 := statusStep_of_eq (turn2_keeps (stepInf (stepT1 sr)).1
    (stepInf (stepT1 sr)).2).2.1
  have h4 := apply_infection_statusStep (stepT2 (stepInf (stepT1 sr))).1
    (stepT2 (stepInf (stepT1 sr))).2
  have h5 := statusStep_of_eq (turn3_keeps (stepInf (stepT2 (stepInf (stepT1 sr)))).1
    (stepInf (stepT2 (stepInf (stepT1 sr)))).2).2.1
  have h6 := apply_infection_statusStep (afterHomePhase sr).1 (afterHomePhase sr).2
  have h7 := statusStep_of_eq (record_history_keeps day
    (stepInf (afterHomePhase sr)).1).2.1
  exact statusStep_trans (statusStep_trans (statusStep_trans (statusStep_trans
    (statusStep_trans (statusStep_trans h1 h2) h3) h4) h5) h6) h7

theorem runFrom_statusStep : ∀ (k day : ℕ) (sr : Sim × Rng),
    statusStep sr.1.person_status (runFrom sr day k).1.person_status
  | 0, _, sr => statusStep_refl sr.1.person_status
  | k + 1, day, sr =>
    statusStep_trans (dayBody_statusStep day sr)
      (runFrom_statusStep k (day + 1) (dayBody day sr))

theorem nodeAdd_fold_people (loc : ℕ → String) (stat : ℕ → Status) :
    ∀ (l : List ℕ) (f : String → NodeData) (nid : String),
      ((l.foldl (fun g p => nodeAdd g (loc p) p (stat p)) f) nid).people =
        (f nid).people ++ (l.filter (fun p => loc p == nid)).map (fun p => (p, stat p))
  | [], f, nid => by simp
  | p :: t, f, nid => by
    rw [List.foldl_cons, nodeAdd_fold_people loc stat t _ nid]
    by_cases hc : loc p = nid
    · subst hc
      rw [List.filter_cons_of_pos (by simp)]
      simp only [nodeAdd, Function.update_same, List.map_cons, List.append_assoc,
        List.singleton_append]
    · rw [List.filter_cons_of_neg (by simp [hc])]
      simp only [nodeAdd, Function.update_noteq (fun h => hc h.symm)]

theorem nodeAdd_fold_popInf (loc : ℕ → String) (stat : ℕ → Status) :
    ∀ (l : List ℕ) (f : String → NodeData) (nid : String),
      ((l.foldl (fun g p => nodeAdd g (loc p) p (stat p)) f) nid).popInfected =
        (f nid).popInfected +
          (l.filter (fun p => loc p == nid && stat p == Status.infected)).length
  | [], f, nid => by simp
  | p :: t, f, nid => by
    rw [List.foldl_cons, nodeAdd_fold_popInf loc stat t _ nid]
    by_cases hc : loc p = nid
    · subst hc
      cases hs : stat p
      · rw [List.filter_cons_of_pos (by simp [hs])]
        simp [nodeAdd, Function.update_same]
        omega
      · rw [List.filter_cons_of_neg (by simp [hs])]
        simp [nodeAdd, Function.update_same]
    · rw [List.filter_cons_of_neg (by simp [hc])]
      simp only [nodeAdd, Function.update_noteq (fun h => hc h.symm)]

theorem nodeAdd_fold_popNonInf (loc : ℕ → String) (stat : ℕ → Status) :
    ∀ (l : List ℕ) (f : String → NodeData) (nid : String),
      ((l.foldl (fun g p => nodeAdd g (loc p) p (stat p)) f) nid).popNonInfected =
        (f nid).popNonInfected +
          (l.filter (fun p => loc p == nid && stat p == Status.non_infected)).length
  | [], f, nid => by simp
  | p :: t, f, nid => by
    rw [List.foldl_cons, nodeAdd_fold_popNonInf loc stat t _ nid]
    by_cases hc : loc p = nid
    · subst hc
      cases hs : stat p
      · rw [List.filter_cons_of_neg (by simp [hs])]
        simp [nodeAdd, Function.update_same]
      · rw [List.filter_cons_of_pos (by simp [hs])]
        simp [nodeAdd, Function.update_same]
        omega
    · rw [List.filter_cons_of_neg (by simp [hc])]
      simp only [nodeAdd, Function.update_noteq (fun h => hc h.symm)]

theorem recalculate_occ (s : Sim) : occConsistent (recalculate_node_populations s) := by
  intro nid
  simp only [recalculate_node_populations, occupants]
  refine ⟨?_, ?_, ?_⟩
  · rw [nodeAdd_fold_people]
    simp [clearNodes]
  · rw [nodeAdd_fold_popInf]
    simp [clearNodes]
  · rw [nodeAdd_fold_popNonInf]
    simp [clearNodes]

theorem apply_infection_occ (s : Sim) (r : Rng) :
    occConsistent (apply_infection s r).1 :=
  recalculate_occ _

theorem getD_mod_mem (l : List String) (h : l ≠ []) (n : ℕ) (d : String) :
    l.getD (n % l.length) d ∈ l := by
  have hlen : 0 < l.length := List.length_pos.2 h
  have hlt : n % l.length < l.length := Nat.mod_lt _ hlen
  rw [List.getD_eq_getElem l d hlt]
  exact List.getElem_mem hlt

theorem moveStep_fold_loc_other (dests : List String) :
    ∀ (l : List ℕ) (b : Sim × Rng) (p : ℕ), p ∉ l →
      (l.foldl (moveStep dests) b).1.person_location p = b.1.person_location p
  | [], _, _, _ => rfl
  | q :: t, b, p, hp => by
    have hqp : p ≠ q := fun h => hp (h ▸ List.mem_cons_self q t)
    have hpt : p ∉ t := fun h => hp (List.mem_cons_of_mem q h)
    rw [List.foldl_cons, moveStep_fold_loc_other dests t _ p hpt]
    exact Function.update_noteq hqp _ _

theorem moveStep_fold_loc_mem (dests : List String) (hne : dests ≠ []) :
    ∀ (l : List ℕ) (b : Sim × Rng) (p : ℕ), p ∈ l →
      (l.foldl (moveStep dests) b).1.person_location p ∈ dests
  | q :: t, b, p, hp => by
    by_cases hpt : p ∈ t
    · exact moveStep_fold_loc_mem dests hne t _ p hpt
    · have hpq : p = q := by
        rcases List.mem_cons.1 hp with h | h
        · exact h
        · exact absurd h hpt
      subst hpq
      rw [List.foldl_cons, moveStep_fold_loc_other dests t _ p hpt]
      simp only [moveStep, Function.update_same]
      exact getD_mod_mem dests hne _ _

theorem homeStep_fold_loc_other :
    ∀ (l : List ℕ) (b : Sim) (p : ℕ), p ∉ l →
      (l.foldl homeStep b).person_location p = b.person_location p
  | [], _, _, _ => rfl
  | q :: t, b, p, hp => by
    have hqp : p ≠ q := fun h => hp (h ▸ List.mem_cons_self q t)
    have hpt : p ∉ t := fun h => hp (List.mem_cons_of_mem q h)
    rw [List.foldl_cons, homeStep_fold_loc_other t _ p hpt]
    exact Function.update_noteq hqp _ _

theorem homeStep_fold_loc_mem :
    ∀ (l : List ℕ) (b : Sim) (p : ℕ), p ∈ l →
      (l.foldl homeStep b).person_location p = b.person_to_household p
  | q :: t, b, p, hp => by
    by_cases hpt : p ∈ t
    · exact homeStep_fold_loc_mem t _ p hpt
    · have hpq : p = q := by
        rcases List.mem_cons.1 hp with h | h
        · exact h
        · exact absurd h hpt
      subst hpq
      rw [List.foldl_cons, homeStep_fold_loc_other t _ p hpt]
      exact Function.update_same p _ _

theorem turn3_home (s : Sim) (r : Rng) :
    ∀ p ∈ s.person_order, (turn3 s r).1.person_location p = s.person_to_household p := by
  intro p hp
  simp only [turn3]
  exact homeStep_fold_loc_mem _ _ p hp

theorem turn1_dest (s : Sim) (r : Rng) (h : s.school_ids ++ s.office_ids ≠ []) :
    ∀ p ∈ s.person_order,
      (turn1 s r).1.person_location p ∈ s.school_ids ++ s.office_ids := by
  intro p hp
  simp only [turn1]
  split
  · next hemp => exact absurd (List.isEmpty_iff.1 hemp) h
  · exact moveStep_fold_loc_mem _ h _ _ p hp

theorem cons_getElem_eraseIdx_perm (l : List (ℕ × Status)) (i : ℕ) (h : i < l.length) :
    List.Perm (l.get ⟨i, h⟩ :: l.eraseIdx i) l :=
  (List.Perm.cons _ (List.erase_getElem h).symm).trans
    (List.perm_cons_erase (List.getElem_mem h)).symm

theorem shuffleGo_perm : ∀ (fuel : ℕ) (l : List (ℕ × Status)) (r : Rng),
    l.length ≤ fuel → List.Perm (shuffleGo fuel l r).1 l
  | 0, l, _, h => by
    have : l = [] := List.length_eq_zero.1 (Nat.le_zero.1 h)
    subst this
    exact List.Perm.refl _
  | _ + 1, [], r, _ => by simp [shuffleGo]
  | fuel + 1, a :: t, r, h => by
    have hlt : (nextInt r).1 % (a :: t).length < (a :: t).length :=
      Nat.mod_lt _ (by simp)
    have hlen : ((a :: t).eraseIdx ((nextInt r).1 % (a :: t).length)).length ≤ fuel := by
      have := List.length_eraseIdx_add_one hlt
      simp only [List.length_cons] at this h ⊢
      omega
    have ih := shuffleGo_perm fuel ((a :: t).eraseIdx ((nextInt r).1 % (a :: t).length))
      (nextInt r).2 hlen
    simp only [shuffleGo]
    rw [List.getD_eq_getElem _ a hlt]
    exact (List.Perm.cons _ ih).trans (cons_getElem_eraseIdx_perm (a :: t) _ hlt)

theorem shuffle_perm (l : List (ℕ × Status)) (r : Rng) :
    List.Perm (shuffle l r).1 l :=
  shuffleGo_perm l.length l r le_rfl

theorem personList_fst_nodup (cfg : Config) : ((personListOf cfg).map Prod.fst).Nodup := by
  have he : (personListOf cfg).map Prod.fst =
      List.range (num_infectedN cfg) ++
        (List.range (num_non_infectedN cfg)).map (fun i => num_infectedN cfg + i) := by
    simp only [personListOf, List.map_append, List.map_map]
    congr 1
    exact List.map_id'' (fun _ => rfl) _
  rw [he, List.nodup_append]
  refine ⟨List.nodup_range _, List.Nodup.map (fun i j hij => by omega) (List.nodup_range _), ?_⟩
  intro x hx hx'
  rcases List.mem_map.1 hx' with ⟨i, _, hi⟩
  have := List.mem_range.1 hx
  omega

theorem num_split (cfg : Config) (h0 : 0 ≤ cfg.initial_infected_percentage)
    (h1 : cfg.initial_infected_percentage ≤ 1) :
    num_infectedN cfg + num_non_infectedN cfg = cfg.total_population := by
  have hq : (0 : ℚ) ≤ (cfg.total_population : ℚ) * cfg.initial_infected_percentage :=
    mul_nonneg (by positivity) h0
  have hz : num_infectedZ cfg =
      ⌊(cfg.total_population : ℚ) * cfg.initial_infected_percentage⌋ := by
    simp [num_infectedZ, pyTrunc, hq]
  have h0' : 0 ≤ num_infectedZ cfg := hz ▸ Int.floor_nonneg.2 hq
  have hle : num_infectedZ cfg ≤ (cfg.total_population : ℤ) := by
    rw [hz]
    calc ⌊(cfg.total_population : ℚ) * cfg.initial_infected_percentage⌋
        ≤ ⌊(cfg.total_population : ℚ)⌋ :=
          Int.floor_le_floor (mul_le_of_le_one_right (by positivity) h1)
      _ = (cfg.total_population : ℤ) := Int.floor_natCast _
  simp only [num_infectedN, num_non_infectedN]
  omega

theorem personList_length (cfg : Config) :
    (personListOf cfg).length = num_infectedN cfg + num_non_infectedN cfg := by
  simp [personListOf]

theorem personList_ne_nil (cfg : Config) (h : 1 ≤ cfg.total_population) :
    personListOf cfg ≠ [] := by
  intro he
  have hlen := personList_length cfg
  rw [he] at hlen
  simp only [List.length_nil] at hlen
  simp only [num_infectedN, num_non_infectedN] at hlen
  omega

theorem mk_order_def (cfg : Config) (r : Rng) :
    (mkSimPure cfg r).1.person_order = ((shuffle (personListOf cfg) r).1).map Prod.fst := rfl

theorem mk_order_perm (cfg : Config) (r : Rng) :
    List.Perm (mkSimPure cfg r).1.person_order ((personListOf cfg).map Prod.fst) :=
  List.Perm.map Prod.fst (shuffle_perm (personListOf cfg) r)

theorem mk_order_nodup (cfg : Config) (r : Rng) :
    (mkSimPure cfg r).1.person_order.Nodup :=
  ((mk_order_perm cfg r).nodup_iff).2 (personList_fst_nodup cfg)

theorem mk_order_length (cfg : Config) (r : Rng)
    (h0 : 0 ≤ cfg.initial_infected_percentage)
    (h1 : cfg.initial_infected_percentage ≤ 1) :
    (mkSimPure cfg r).1.person_order.length = cfg.total_population := by
  rw [mk_order_def, List.length_map, (shuffle_perm (personListOf cfg) r).length_eq,
    personList_length, num_split cfg h0 h1]

theorem assignGo_eq (hh : List String) :
    ∀ (l : List (ℕ × Status)) (i : ℕ) (st : AState),
      assignGo hh l i st =
        if l ≠ [] ∧ hh = [] then
          Except.error "ZeroDivisionError: integer division or modulo by zero"
        else Except.ok (assignPure hh l i st)
  | [], i, st => by simp [assignGo, assignPure]
  | pr :: rest, i, st => by
    by_cases hhh : hh = []
    · simp [assignGo, hhh]
    · have hlen : hh.length ≠ 0 := fun he => hhh (List.length_eq_zero.1 he)
      simp only [assignGo, if_neg hlen, assignGo_eq hh rest (i + 1) _]
      simp [hhh, assignPure]

theorem mkSimulation_eq_ok (cfg : Config) (r : Rng)
    (h : householdIdsOf cfg ≠ [] ∨ personListOf cfg = []) :
    mkSimulation cfg r = Except.ok (mkSimPure cfg r) := by
  simp only [mkSimulation, mkSimPure]
  rw [assignGo_eq]
  rcases h with h | h
  · rw [if_neg (fun hc => h hc.2)]
  · have hsh : (shuffle (personListOf cfg) r).1 = [] :=
      List.perm_nil.1 (h ▸ shuffle_perm (personListOf cfg) r)
    rw [if_neg (fun hc => hc.1 hsh)]

theorem mkSimulation_err (cfg : Config) (r : Rng)
    (hh : householdIdsOf cfg = []) (hp : personListOf cfg ≠ []) :
    mkSimulation cfg r =
      Except.error "ZeroDivisionError: integer division or modulo by zero" := by
  have hsh : (shuffle (personListOf cfg) r).1 ≠ [] := by
    intro he
    exact hp (List.perm_nil.1 ((he ▸ shuffle_perm (personListOf cfg) r).symm))
  simp only [mkSimulation]
  rw [assignGo_eq, if_pos ⟨hsh, hh⟩]

theorem assignPure_untouched (hh : List String) :
    ∀ (l : List (ℕ × Status)) (i : ℕ) (st : AState) (p : ℕ), p ∉ l.map Prod.fst →
      (assignPure hh l i st).toH p = st.toH p ∧
      (assignPure hh l i st).loc p = st.loc p ∧
      (assignPure hh l i st).stat p = st.stat p
  | [], _, _, _, _ => ⟨rfl, rfl, rfl⟩
  | pr :: rest, i, st, p, hp => by
    have hne : p ≠ pr.1 := by
      intro h
      exact hp (by simp [h])
    have hpt : p ∉ rest.map Prod.fst := fun h => hp (by simp [h])
    obtain ⟨e1, e2, e3⟩ :=
      assignPure_untouched hh rest (i + 1) (assignStep hh i st pr.1 pr.2) p hpt
    refine ⟨?_, ?_, ?_⟩
    · rw [show assignPure hh (pr :: rest) i st =
        assignPure hh rest (i + 1) (assignStep hh i st pr.1 pr.2) from rfl, e1]
      exact Function.update_noteq hne _ _
    · rw [show assignPure hh (pr :: rest) i st =
        assignPure hh rest (i + 1) (assignStep hh i st pr.1 pr.2) from rfl, e2]
      exact Function.update_noteq hne _ _
    · rw [show assignPure hh (pr :: rest) i st =
        assignPure hh rest (i + 1) (assignStep hh i st pr.1 pr.2) from rfl, e3]
      exact Function.update_noteq hne _ _

theorem assignPure_member (hh : List String) :
    ∀ (l : List (ℕ × Status)) (i : ℕ) (st : AState), (l.map Prod.fst).Nodup →
      ∀ pr ∈ l,
        (assignPure hh l i st).stat pr.1 = pr.2 ∧
        (assignPure hh l i st).loc pr.1 = (assignPure hh l i st).toH pr.1 ∧
        (hh ≠ [] → (assignPure hh l i st).loc pr.1 ∈ hh)
  | q :: rest, i, st, hnd, pr, hpr => by
    have hnd' : (rest.map Prod.fst).Nodup := (List.nodup_cons.1 (by simpa using hnd)).2
    rcases List.mem_cons.1 hpr with h | h
    · subst h
      have hq : pr.1 ∉ rest.map Prod.fst := (List.nodup_cons.1 (by simpa using hnd)).1
      obtain ⟨e1, e2, e3⟩ :=
        assignPure_untouched hh rest (i + 1) (assignStep hh i st pr.1 pr.2) pr.1 hq
      rw [show assignPure hh (pr :: rest) i st =
        assignPure hh rest (i + 1) (assignStep hh i st pr.1 pr.2) from rfl]
      refine ⟨?_, ?_, ?_⟩
      · rw [e3]
        exact Function.update_same _ _ _
      · rw [e2, e1]
        show Function.update st.loc pr.1 (hh.getD (i % hh.length) "") pr.1 =
          Function.update st.toH pr.1 (hh.getD (i % hh.length) "") pr.1
        rw [Function.update_same, Function.update_same]
      · intro hne
        rw [e2]
        have hu : (assignStep hh i st pr.1 pr.2).loc pr.1 =
            hh.getD (i % hh.length) "" := Function.update_same _ _ _
        rw [hu]
        exact getD_mod_mem hh hne _ _
    · exact (show assignPure hh (q :: rest) i st =
        assignPure hh rest (i + 1) (assignStep hh i st q.1 q.2) from rfl) ▸
        assignPure_member hh rest (i + 1) (assignStep hh i st q.1 q.2) hnd' pr h

theorem assignPure_nodes (hh : List String) :
    ∀ (l : List (ℕ × Status)) (i : ℕ) (st : AState), (l.map Prod.fst).Nodup →
      (assignPure hh l i st).nodes =
        (l.map Prod.fst).foldl
          (fun g p => nodeAdd g ((assignPure hh l i st).loc p) p
            ((assignPure hh l i st).stat p)) st.nodes
  | [], _, _, _ => rfl
  | q :: rest, i, st, hnd => by
    have hnd' : (rest.map Prod.fst).Nodup := (List.nodup_cons.1 (by simpa using hnd)).2
    have hq : q.1 ∉ rest.map Prod.fst := (List.nodup_cons.1 (by simpa using hnd)).1
    obtain ⟨e1, e2, e3⟩ :=
      assignPure_untouched hh rest (i + 1) (assignStep hh i st q.1 q.2) q.1 hq
    have hloc : (assignPure hh (q :: rest) i st).loc q.1 = hh.getD (i % hh.length) "" := by
      rw [show assignPure hh (q :: rest) i st =
        assignPure hh rest (i + 1) (assignStep hh i st q.1 q.2) from rfl, e2]
      exact Function.update_same _ _ _
    have hstat : (assignPure hh (q :: rest) i st).stat q.1 = q.2 := by
      rw [show assignPure hh (q :: rest) i st =
        assignPure hh rest (i + 1) (assignStep hh i st q.1 q.2) from rfl, e3]
      exact Function.update_same _ _ _
    rw [show assignPure hh (q :: rest) i st =
      assignPure hh rest (i + 1) (assignStep hh i st q.1 q.2) from rfl]
    rw [assignPure_nodes hh rest (i + 1) (assignStep hh i st q.1 q.2) hnd']
    rw [List.map_cons, List.foldl_cons]
    congr 1
    rw [show assignPure hh rest (i + 1) (assignStep hh i st q.1 q.2) =
      assignPure hh (q :: rest) i st from rfl, hloc, hstat]
    rfl

theorem initNodesFun_empty (cc : List (String × ℕ)) :
    ∀ nid : String, (initNodesFun cc nid).people = [] ∧
      (initNodesFun cc nid).popInfected = 0 ∧ (initNodesFun cc nid).popNonInfected = 0 := by
  unfold initNodesFun
  refine foldl_inv _
    (fun f : String → NodeData => ∀ nid, (f nid).people = [] ∧
      (f nid).popInfected = 0 ∧ (f nid).popNonInfected = 0) ?_ _ _ ?_
  · intro f pr hf
    refine foldl_inv _
      (fun g : String → NodeData => ∀ nid, (g nid).people = [] ∧
        (g nid).popInfected = 0 ∧ (g nid).popNonInfected = 0) ?_ _ _ hf
    intro g nid hg nid'
    by_cases h : nid' = nid
    · subst h
      simp [Function.update_same, emptyNode]
    · rw [Function.update_noteq h]
      exact hg nid'
  · intro nid
    exact ⟨rfl, rfl, rfl⟩

theorem mkSimPure_occ (cfg : Config) (r : Rng) : occConsistent (mkSimPure cfg r).1 := by
  have hnd : (((shuffle (personListOf cfg) r).1).map Prod.fst).Nodup := mk_order_nodup cfg r
  have hnodes := assignPure_nodes (householdIdsOf cfg) (shuffle (personListOf cfg) r).1 0
    (initAState cfg) hnd
  have hinit : (initAState cfg).nodes = initNodesFun cfg.category_counts := rfl
  intro nid
  refine ⟨?_, ?_, ?_⟩
  · show ((assignPure (householdIdsOf cfg) (shuffle (personListOf cfg) r).1 0
      (initAState cfg)).nodes nid).people = _
    rw [hnodes, nodeAdd_fold_people, hinit,
      (initNodesFun_empty cfg.category_counts nid).1, List.nil_append]
    rfl
  · show ((assignPure (householdIdsOf cfg) (shuffle (personListOf cfg) r).1 0
      (initAState cfg)).nodes nid).popInfected = _
    rw [hnodes, nodeAdd_fold_popInf, hinit,
      (initNodesFun_empty cfg.category_counts nid).2.1, Nat.zero_add]
    rfl
  · show ((assignPure (householdIdsOf cfg) (shuffle (personListOf cfg) r).1 0
      (initAState cfg)).nodes nid).popNonInfected = _
    rw [hnodes, nodeAdd_fold_popNonInf, hinit,
      (initNodesFun_empty cfg.category_counts nid).2.2, Nat.zero_add]
    rfl

theorem countInfected_le (s : Sim) : countInfected s ≤ s.person_order.length :=
  List.length_filter_le _ _

theorem filter_status_partition (f : ℕ → Status) :
    ∀ l : List ℕ, (l.filter (fun p => f p == Status.infected)).length +
      (l.filter (fun p => f p == Status.non_infected)).length = l.length
  | [] => rfl
  | p :: t => by
    have ih := filter_status_partition f t
    cases hf : f p
    · rw [List.filter_cons_of_pos (by simp [hf]), List.filter_cons_of_neg (by simp [hf])]
      simp only [List.length_cons]
      omega
    · rw [List.filter_cons_of_neg (by simp [hf]), List.filter_cons_of_pos (by simp [hf])]
      simp only [List.length_cons]
      omega

theorem count_partition (s : Sim) :
    countInfected s + countNonInfected s = s.person_order.length :=
  filter_status_partition s.person_status s.person_order

theorem preRecord_keeps (sr : Sim × Rng) :
    sameCore sr.1 (stepInf (afterHomePhase sr)).1 ∧
      (stepInf (afterHomePhase sr)).1.simulation_history = sr.1.simulation_history := by
  have h1 : sameCore sr.1 (stepT1 sr).1 ∧
      (stepT1 sr).1.simulation_history = sr.1.simulation_history :=
    ⟨(turn1_keeps sr.1 sr.2).1, (turn1_keeps sr.1 sr.2).2.2⟩
  have h2 : sameCore (stepT1 sr).1 (stepInf (stepT1 sr)).1 ∧
      (stepInf (stepT1 sr)).1.simulation_history = (stepT1 sr).1.simulation_history :=
    ⟨(apply_infection_keeps _ _).1, (apply_infection_keeps _ _).2.2⟩
  have h3 : sameCore (stepInf (stepT1 sr)).1 (stepT2 (stepInf (stepT1 sr))).1 ∧
      (stepT2 (stepInf (stepT1 sr))).1.simulation_history =
        (stepInf (stepT1 sr)).1.simulation_history :=
    ⟨(turn2_keeps _ _).1, (turn2_keeps _ _).2.2⟩
  have h4 : sameCore (stepT2 (stepInf (stepT1 sr))).1
      (stepInf (stepT2 (stepInf (stepT1 sr)))).1 ∧
      (stepInf (stepT2 (stepInf (stepT1 sr)))).1.simulation_history =
        (stepT2 (stepInf (stepT1 sr))).1.simulation_history :=
    ⟨(apply_infection_keeps _ _).1, (apply_infection_keeps _ _).2.2⟩
  have h5 : sameCore (stepInf (stepT2 (stepInf (stepT1 sr)))).1 (afterHomePhase sr).1 ∧
      (afterHomePhase sr).1.simulation_history =
        (stepInf (stepT2 (stepInf (stepT1 sr)))).1.simulation_history :=
    ⟨(turn3_keeps _ _).1, (turn3_keeps _ _).2.2⟩
  have h6 : sameCore (afterHomePhase sr).1 (stepInf (afterHomePhase sr)).1 ∧
      (stepInf (afterHomePhase sr)).1.simulation_history =
        (afterHomePhase sr).1.simulation_history :=
    ⟨(apply_infection_keeps _ _).1, (apply_infection_keeps _ _).2.2⟩
  refine ⟨sameCore_trans (sameCore_trans (sameCore_trans (sameCore_trans
    (sameCore_trans h1.1 h2.1) h3.1) h4.1) h5.1) h6.1, ?_⟩
  rw [h6.2, h5.2, h4.2, h3.2, h2.2, h1.2]

theorem dayBody_hist (day N : ℕ) (sr : Sim × Rng)
    (h : sr.1.person_order.length = N ∧
      ∀ e ∈ sr.1.simulation_history, e.2 ≤ N) :
    (dayBody day sr).1.person_order.length = N ∧
      ∀ e ∈ (dayBody day sr).1.simulation_history, e.2 ≤ N := by
  obtain ⟨hc, hh⟩ := preRecord_keeps sr
  constructor
  · rw [show (dayBody day sr).1.person_order =
      (stepInf (afterHomePhase sr)).1.person_order from rfl, hc.2.2.2.2.1, h.1]
  · intro e he
    rw [show (dayBody day sr).1.simulation_history =
      (stepInf (afterHomePhase sr)).1.simulation_history ++
        [(day, countInfected (stepInf (afterHomePhase sr)).1)] from rfl, hh] at he
    rcases List.mem_append.1 he with he | he
    · exact h.2 e he
    · have : e = (day, countInfected (stepInf (afterHomePhase sr)).1) :=
        List.mem_singleton.1 he
      subst this
      calc countInfected (stepInf (afterHomePhase sr)).1 ≤
          (stepInf (afterHomePhase sr)).1.person_order.length := countInfected_le _
        _ = N := by rw [hc.2.2.2.2.1, h.1]

theorem runFrom_hist : ∀ (k day N : ℕ) (sr : Sim × Rng),
    (sr.1.person_order.length = N ∧ ∀ e ∈ sr.1.simulation_history, e.2 ≤ N) →
    ((runFrom sr day k).1.person_order.length = N ∧
      ∀ e ∈ (runFrom sr day k).1.simulation_history, e.2 ≤ N)
  | 0, _, _, _, h => h
  | k + 1, day, N, sr, h =>
    runFrom_hist k (day + 1) N (dayBody day sr) (dayBody_hist day N sr h)

theorem dayBody_hist_len (day : ℕ) (sr : Sim × Rng) :
    (dayBody day sr).1.simulation_history.length =
      sr.1.simulation_history.length + 1 := by
  rw [show (dayBody day sr).1.simulation_history =
    (stepInf (afterHomePhase sr)).1.simulation_history ++
      [(day, countInfected (stepInf (afterHomePhase sr)).1)] from rfl,
    (preRecord_keeps sr).2, List.length_append, List.length_singleton]

theorem runFrom_hist_len : ∀ (k day : ℕ) (sr : Sim × Rng),
    (runFrom sr day k).1.simulation_history.length =
      sr.1.simulation_history.length + k
  | 0, _, _ => rfl
  | k + 1, day, sr => by
    rw [show runFrom sr day (k + 1) = runFrom (dayBody day sr) (day + 1) k from rfl,
      runFrom_hist_len k (day + 1) (dayBody day sr), dayBody_hist_len day sr]
    omega

theorem dayBodyEv_proj (day : ℕ) (x : (Sim × Rng) × List PhaseEvent) :
    (dayBodyEv day x).1 = dayBody day x.1 := rfl

theorem dayBodyEv_trace (day : ℕ) (x : (Sim × Rng) × List PhaseEvent) :
    (dayBodyEv day x).2 = x.2 ++ dayPattern := by
  simp [dayBodyEv, tagged, dayPattern]

theorem runFromEv_spec : ∀ (k day : ℕ) (x : (Sim × Rng) × List PhaseEvent),
    (runFromEv x day k).1 = runFrom x.1 day k ∧
      (runFromEv x day k).2 = x.2 ++ (List.replicate k dayPattern).flatten
  | 0, _, x => ⟨rfl, by rw [show ∀ d, runFromEv x d 0 = x from fun _ => rfl]; simp⟩
  | k + 1, day, x => by
    have ih := runFromEv_spec k (day + 1) (dayBodyEv day x)
    refine ⟨?_, ?_⟩
    · rw [show runFromEv x day (k + 1) = runFromEv (dayBodyEv day x) (day + 1) k from rfl,
        ih.1, dayBodyEv_proj]
      rfl
    · rw [show runFromEv x day (k + 1) = runFromEv (dayBodyEv day x) (day + 1) k from rfl,
        ih.2, dayBodyEv_trace, List.replicate_succ, List.flatten_cons, List.append_assoc]

theorem one_sub_exp_neg_le (x : ℝ) : 1 - Real.exp (-x) ≤ x := by
  have := Real.add_one_le_exp (-x)
  linarith

theorem exp_term_nonneg {lam t : ℝ} (hlam : 0 < lam) (ht : 0 ≤ t) :
    0 ≤ t - (1 - Real.exp (-(lam * t))) / lam := by
  rw [sub_nonneg, div_le_iff hlam]
  have := one_sub_exp_neg_le (lam * t)
  nlinarith

theorem quantaDose_nonneg {ρ NI E V lam t : ℝ} (hρ : 0 ≤ ρ) (hNI : 0 ≤ NI)
    (hE : 0 ≤ E) (hV : 0 ≤ V) (hlam : 0 < lam) (ht : 0 ≤ t) :
    0 ≤ quantaDose ρ NI E V lam t := by
  unfold quantaDose
  apply mul_nonneg
  · apply div_nonneg
    · positivity
    · positivity
  · exact exp_term_nonneg hlam ht

theorem quantaDose_mono_NI {ρ NI NI' E V lam t : ℝ} (hρ : 0 ≤ ρ) (hE : 0 ≤ E)
    (hV : 0 < V) (hlam : 0 < lam) (ht : 0 ≤ t) (hNI : NI ≤ NI') :
    quantaDose ρ NI E V lam t ≤ quantaDose ρ NI' E V lam t := by
  unfold quantaDose
  apply mul_le_mul_of_nonneg_right _ (exp_term_nonneg hlam ht)
  apply (div_le_div_right (mul_pos hV hlam)).2
  nlinarith [mul_nonneg (mul_nonneg hρ (sub_nonneg.2 hNI)) hE]

theorem mkSimulation_ok_inv (cfg : Config) (r : Rng) (sr : Sim × Rng)
    (h : mkSimulation cfg r = Except.ok sr) : sr = mkSimPure cfg r := by
  by_cases hc : (shuffle (personListOf cfg) r).1 ≠ [] ∧ householdIdsOf cfg = []
  · simp only [mkSimulation] at h
    rw [assignGo_eq, if_pos hc] at h
    cases h
  · simp only [mkSimulation] at h
    rw [assignGo_eq, if_neg hc] at h
    have := Except.ok.inj h
    rw [← this]
    rfl

theorem numZ_cfgABC : num_infectedZ cfgABC = 0 := by
  norm_num [num_infectedZ, pyTrunc, cfgABC]

theorem numZ_cfgH2 : num_infectedZ cfgH2 = 0 := by
  norm_num [num_infectedZ, pyTrunc, cfgH2]

theorem numZ_cfgNoHH : num_infectedZ cfgNoHH = 0 := by
  norm_num [num_infectedZ, pyTrunc, cfgNoHH]

theorem personList_cfgABC : personListOf cfgABC = [(0, Status.non_infected)] := by
  rw [personListOf, num_infectedN, num_non_infectedN, numZ_cfgABC]
  decide

theorem personList_cfgH2 :
    personListOf cfgH2 = [(0, Status.non_infected), (1, Status.non_infected)] := by
  rw [personListOf, num_infectedN, num_non_infectedN, numZ_cfgH2]
  decide

theorem personList_cfgNoHH : personListOf cfgNoHH = [] := by
  rw [personListOf, num_infectedN, num_non_infectedN, numZ_cfgNoHH]
  decide

/-- C1: the claim says the per-susceptible infection probability at a
gathering equals the Wells-Riley value `P = 1 − e^(−γ·n(t))`.  The source's
`calculate_infection_chance` instead evaluates the self-described
placeholder `(infected/total)·category_factor`: at a household node with
one infected and one non-infected occupant it returns `(1/2)·0.5 = 1/4`,
a value with no dependence on exposure duration, volume, ventilation rate,
emission rate, inhalation rate or infectivity — the function takes none of
those as inputs — so it is not of the claimed form. -/
theorem C1_placeholder_not_wells_riley :
    calculate_infection_chance
      ⟨"h1", "h", 1, 1, [(0, Status.infected), (1, Status.non_infected)]⟩ = 1 / 4 := by
  norm_num [calculate_infection_chance, categoryFactor]

/-- C2 (counterexample): the history entry recorded by `_record_history` is
the pair `{'day': …, 'total_infected': …}` — not a mapping from
disease-state name to count — and its values do not sum to the total
population: for a two-person run recorded at day 0 with no infected
agents the entry is `(0, 0)` and `0 + 0 ≠ 2`. -/
theorem C2_counterexample_history_entry :
    (run_simulation simH2 rngZero 0).1.simulation_history = [(0, 0)] ∧
      0 + 0 ≠ cfgH2.total_population := by
  constructor
  · simp only [simH2, mkSimPure, personList_cfgH2]
    decide
  · decide

/-- C2 (amended): every run records one history entry per simulated day
(plus the initial day-0 entry); each entry is a `(day, total_infected)`
pair whose infected count never exceeds the total population, and the
infected and non-infected agent counts always sum to the total
population. -/
theorem C2_history_conservation (cfg : Config) (r : Rng) (s : Sim) (r1 : Rng)
    (h0 : 0 ≤ cfg.initial_infected_percentage)
    (h1 : cfg.initial_infected_percentage ≤ 1)
    (hok : mkSimulation cfg r = Except.ok (s, r1)) (days : ℕ) :
    (run_simulation s r1 days).1.simulation_history.length = days + 1 ∧
    (∀ e ∈ (run_simulation s r1 days).1.simulation_history,
      e.2 ≤ cfg.total_population) ∧
    countInfected (run_simulation s r1 days).1 +
      countNonInfected (run_simulation s r1 days).1 = cfg.total_population := by
  have hinv := mkSimulation_ok_inv cfg r (s, r1) hok
  have hs : s = (mkSimPure cfg r).1 := congrArg Prod.fst hinv
  subst hs
  have hN : (mkSimPure cfg r).1.person_order.length = cfg.total_population :=
    mk_order_length cfg r h0 h1
  have hbase : ((record_history 0 (mkSimPure cfg r).1, r1) :
      Sim × Rng).1.person_order.length = cfg.total_population ∧
      ∀ e ∈ ((record_history 0 (mkSimPure cfg r).1, r1) :
        Sim × Rng).1.simulation_history, e.2 ≤ cfg.total_population := by
    refine ⟨hN, ?_⟩
    intro e he
    have he' : e ∈ ([] : List (ℕ × ℕ)) ++
        [(0, countInfected (mkSimPure cfg r).1)] := he
    rcases List.mem_append.1 he' with h | h
    · cases h
    · have : e = (0, countInfected (mkSimPure cfg r).1) := List.mem_singleton.1 h
      subst this
      exact (countInfected_le _).trans (le_of_eq hN)
  have hrun := runFrom_hist days 1 cfg.total_population
    (record_history 0 (mkSimPure cfg r).1, r1) hbase
  have hlen := runFrom_hist_len days 1 (record_history 0 (mkSimPure cfg r).1, r1)
  refine ⟨?_, hrun.2, ?_⟩
  · rw [show run_simulation (mkSimPure cfg r).1 r1 days =
      runFrom (record_history 0 (mkSimPure cfg r).1, r1) 1 days from rfl, hlen]
    rw [show ((record_history 0 (mkSimPure cfg r).1, r1) :
      Sim × Rng).1.simulation_history =
      ([] : List (ℕ × ℕ)) ++ [(0, countInfected (mkSimPure cfg r).1)] from rfl]
    simp
    omega
  · rw [count_partition]
    exact hrun.1

/-- C2 witness. -/
theorem C2_history_conservation_witness :
    (run_simulation (mkSimPure cfgH2 rngZero).1 (mkSimPure cfgH2 rngZero).2
      1).1.simulation_history.length = 1 + 1 ∧
    (∀ e ∈ (run_simulation (mkSimPure cfgH2 rngZero).1 (mkSimPure cfgH2 rngZero).2
      1).1.simulation_history, e.2 ≤ cfgH2.total_population) ∧
    countInfected (run_simulation (mkSimPure cfgH2 rngZero).1
        (mkSimPure cfgH2 rngZero).2 1).1 +
      countNonInfected (run_simulation (mkSimPure cfgH2 rngZero).1
        (mkSimPure cfgH2 rngZero).2 1).1 = cfgH2.total_population :=
  C2_history_conservation cfgH2 rngZero (mkSimPure cfgH2 rngZero).1
    (mkSimPure cfgH2 rngZero).2 (by norm_num [cfgH2]) (by norm_num [cfgH2])
    (mkSimulation_eq_ok cfgH2 rngZero (Or.inl (by decide))) 1

/-- C3: within `run_simulation`, every simulated day performs exactly the
three movement phases in the fixed order work/school (`turn1`), social
any-to-any (`turn2`), home-return (`turn3`), each immediately followed by
an `apply_infection` step over the resulting occupancy (then the day is
recorded): the instrumented run projects to the plain run and emits the
trace `record :: (moveWork, infect, moveSocial, infect, moveHome, infect,
record) × days`. -/
theorem C3_phase_order (cfg : Config) (r : Rng) (s : Sim) (r1 : Rng)
    (hok : mkSimulation cfg r = Except.ok (s, r1)) (days : ℕ) :
    (run_simulationEv s r1 days).1 = run_simulation s r1 days ∧
    (run_simulationEv s r1 days).2 =
      PhaseEvent.record :: (List.replicate days dayPattern).flatten := by
  have h := runFromEv_spec days 1 ((record_history 0 s, r1), [PhaseEvent.record])
  exact ⟨h.1, by rw [show run_simulationEv s r1 days =
    runFromEv ((record_history 0 s, r1), [PhaseEvent.record]) 1 days from rfl, h.2]; rfl⟩

/-- C3 witness. -/
theorem C3_phase_order_witness :
    (run_simulationEv (mkSimPure cfgH2 rngZero).1 (mkSimPure cfgH2 rngZero).2 2).1 =
      run_simulation (mkSimPure cfgH2 rngZero).1 (mkSimPure cfgH2 rngZero).2 2 ∧
    (run_simulationEv (mkSimPure cfgH2 rngZero).1 (mkSimPure cfgH2 rngZero).2 2).2 =
      PhaseEvent.record :: (List.replicate 2 dayPattern).flatten :=
  C3_phase_order cfgH2 rngZero (mkSimPure cfgH2 rngZero).1 (mkSimPure cfgH2 rngZero).2
    (mkSimulation_eq_ok cfgH2 rngZero (Or.inl (by decide))) 2

/-- C4 (counterexample): in the work phase the destination is drawn from
the random stream, not read from a stored per-agent work assignment (the
source stores none): the same constructed one-person simulation sends
person 0 to the school node under one stream and to the office node under
another, so no work node fixed at construction equals the destination in
both runs. -/
theorem C4_counterexample_work_destination :
    (turn1 simABC rngZero).1.person_location 0 = "s1" ∧
    (turn1 simABC rngOne).1.person_location 0 = "o1" ∧
    ("s1" : String) ≠ "o1" := by
  refine ⟨?_, ?_, by decide⟩
  · simp only [simABC, mkSimPure, personList_cfgABC]
    decide
  · simp only [simABC, mkSimPure, personList_cfgABC]
    decide

/-- C4 (amended): in the work phase every agent (there is no quarantine or
detection state, and no per-agent work assignment) moves to a node drawn
at random from the school and office nodes, provided at least one such
node exists. -/
theorem C4_work_phase_random_destination (s : Sim) (r : Rng)
    (h : s.school_ids ++ s.office_ids ≠ []) :
    ∀ p ∈ s.person_order,
      (turn1 s r).1.person_location p ∈ s.school_ids ++ s.office_ids :=
  turn1_dest s r h

/-- C4 witness. -/
theorem C4_work_phase_random_destination_witness :
    (turn1 simABC rngZero).1.person_location 0 ∈
      simABC.school_ids ++ simABC.office_ids :=
  C4_work_phase_random_destination simABC rngZero (by decide) 0
    (by simp only [simABC, mkSimPure, personList_cfgABC]; decide)

/-- C5: in every day of a run from a constructed simulation, after the
home phase (`turn3`, the state `afterHomePhase` inside `dayBody`) every
agent's current location equals the household assigned to it at
construction (`person_to_household`, set once by
`_initialize_population` and never mutated); no agent is ever quarantined
or hospitalized in this code, so this covers every agent. -/
theorem C5_home_phase_returns_home (cfg : Config) (r : Rng) (s : Sim) (r1 : Rng)
    (hok : mkSimulation cfg r = Except.ok (s, r1)) (k : ℕ) :
    ∀ p ∈ (afterHomePhase (runFrom (record_history 0 s, r1) 1 k)).1.person_order,
      (afterHomePhase (runFrom (record_history 0 s, r1) 1 k)).1.person_location p =
        s.person_to_household p := by
  intro p hp
  have mid := runFrom (record_history 0 s, r1) 1 k
  have c0 : sameCore s (record_history 0 s) := (record_history_keeps 0 s).1
  have c1 : sameCore (record_history 0 s)
      (runFrom (record_history 0 s, r1) 1 k).1 :=
    runFrom_core k 1 (record_history 0 s, r1)
  have c2 : sameCore (runFrom (record_history 0 s, r1) 1 k).1
      (stepT1 (runFrom (record_history 0 s, r1) 1 k)).1 :=
    (turn1_keeps _ _).1
  have c3 : sameCore (stepT1 (runFrom (record_history 0 s, r1) 1 k)).1
      (stepInf (stepT1 (runFrom (record_history 0 s, r1) 1 k))).1 :=
    (apply_infection_keeps _ _).1
  have c4 : sameCore (stepInf (stepT1 (runFrom (record_history 0 s, r1) 1 k))).1
      (stepT2 (stepInf (stepT1 (runFrom (record_history 0 s, r1) 1 k)))).1 :=
    (turn2_keeps _ _).1
  have c5 : sameCore
      (stepT2 (stepInf (stepT1 (runFrom (record_history 0 s, r1) 1 k)))).1
      (stepInf (stepT2 (stepInf (stepT1
        (runFrom (record_history 0 s, r1) 1 k))))).1 :=
    (apply_infection_keeps _ _).1
  have cu : sameCore s (stepInf (stepT2 (stepInf (stepT1
      (runFrom (record_history 0 s, r1) 1 k))))).1 :=
    sameCore_trans (sameCore_trans (sameCore_trans (sameCore_trans
      (sameCore_trans c0 c1) c2) c3) c4) c5
  have c6 : sameCore (stepInf (stepT2 (stepInf (stepT1
      (runFrom (record_history 0 s, r1) 1 k))))).1
      (afterHomePhase (runFrom (record_history 0 s, r1) 1 k)).1 :=
    (turn3_keeps _ _).1
  have hp' : p ∈ (stepInf (stepT2 (stepInf (stepT1
      (runFrom (record_history 0 s, r1) 1 k))))).1.person_order := by
    rw [← c6.2.2.2.2.1]
    exact hp
  have hloc := turn3_home
    (stepInf (stepT2 (stepInf (stepT1 (runFrom (record_history 0 s, r1) 1 k))))).1
    (stepInf (stepT2 (stepInf (stepT1 (runFrom (record_history 0 s, r1) 1 k))))).2
    p hp'
  calc (afterHomePhase (runFrom (record_history 0 s, r1) 1 k)).1.person_location p
      = (stepInf (stepT2 (stepInf (stepT1 (runFrom
          (record_history 0 s, r1) 1 k))))).1.person_to_household p := hloc
    _ = s.person_to_household p := by rw [cu.2.2.2.2.2]

/-- C5 witness. -/
theorem C5_home_phase_returns_home_witness :
    (afterHomePhase (runFrom (record_history 0 (mkSimPure cfgH2 rngZero).1,
      (mkSimPure cfgH2 rngZero).2) 1 0)).1.person_location 0 =
      (mkSimPure cfgH2 rngZero).1.person_to_household 0 :=
  C5_home_phase_returns_home cfgH2 rngZero (mkSimPure cfgH2 rngZero).1
    (mkSimPure cfgH2 rngZero).2
    (mkSimulation_eq_ok cfgH2 rngZero (Or.inl (by decide))) 0 0
    (by simp only [afterHomePhase, stepT3, stepT2, stepT1, stepInf]
        simp only [mkSimPure, personList_cfgH2]
        decide)

/-- C6 (spec-modelled Wells-Riley model): for fixed exposure duration and
category parameters, the per-susceptible infection probability
`P = 1 − e^(−γ·n(t))` is non-decreasing in the number of
infectious-or-asymptomatic agents present `N_I` and in the infectivity
coefficient `γ`, and it is exactly 0 when `N_I = 0` or the ventilation
rate `λ` is 0. -/
theorem C6_wells_riley_monotone_and_guards (γ γ' ρ NI NI' E V lam t : ℝ)
    (hγ0 : 0 ≤ γ) (hγ : γ ≤ γ') (hρ : 0 ≤ ρ) (hNI0 : 0 ≤ NI) (hNI : NI ≤ NI')
    (hE : 0 ≤ E) (hV : 0 < V) (hlam : 0 ≤ lam) (ht : 0 ≤ t) :
    infectionProbability γ ρ NI E V lam t ≤ infectionProbability γ ρ NI' E V lam t ∧
    infectionProbability γ ρ NI E V lam t ≤ infectionProbability γ' ρ NI E V lam t ∧
    infectionProbability γ ρ 0 E V lam t = 0 ∧
    infectionProbability γ ρ NI E V 0 t = 0 := by
  refine ⟨?_, ?_, ?_, ?_⟩
  · rcases hlam.eq_or_lt with hl | hl
    · simp [infectionProbability, ← hl]
    · by_cases hni : NI = 0
      · rw [infectionProbability, if_pos (Or.inl hni)]
        by_cases hni' : NI' = 0
        · rw [infectionProbability, if_pos (Or.inl hni')]
        · rw [infectionProbability, if_neg (by push_neg; exact ⟨hni', ne_of_gt hl⟩)]
          rw [sub_nonneg]
          apply Real.exp_le_one_iff.2
          rw [neg_nonpos]
          exact mul_nonneg hγ0
            (quantaDose_nonneg hρ (hNI0.trans hNI) hE hV.le hl ht)
      · have hni' : NI' ≠ 0 := by
          intro h
          exact hni (le_antisymm (h ▸ hNI) hNI0)
        rw [infectionProbability, if_neg (by push_neg; exact ⟨hni, ne_of_gt hl⟩),
          infectionProbability, if_neg (by push_neg; exact ⟨hni', ne_of_gt hl⟩)]
        apply sub_le_sub_left
        apply Real.exp_le_exp.2
        apply neg_le_neg
        exact mul_le_mul_of_nonneg_left
          (quantaDose_mono_NI hρ hE hV hl ht hNI) hγ0
  · by_cases hg : NI = 0 ∨ lam = 0
    · rw [infectionProbability, if_pos hg, infectionProbability, if_pos hg]
    · push_neg at hg
      have hl : 0 < lam := hlam.lt_of_ne (fun h => hg.2 h.symm)
      rw [infectionProbability, if_neg (by push_neg; exact hg),
        infectionProbability, if_neg (by push_neg; exact hg)]
      apply sub_le_sub_left
      apply Real.exp_le_exp.2
      apply neg_le_neg
      exact mul_le_mul_of_nonneg_right hγ
        (quantaDose_nonneg hρ hNI0 hE hV.le hl ht)
  · rw [infectionProbability, if_pos (Or.inl rfl)]
  · rw [infectionProbability, if_pos (Or.inr rfl)]

/-- C6 witness. -/
theorem C6_wells_riley_monotone_and_guards_witness :
    infectionProbability (1/2) 1 1 1 100 1 1 ≤ infectionProbability (1/2) 1 2 1 100 1 1 ∧
    infectionProbability (1/2) 1 1 1 100 1 1 ≤ infectionProbability 1 1 1 1 100 1 1 ∧
    infectionProbability (1/2) 1 0 1 100 1 1 = 0 ∧
    infectionProbability (1/2) 1 1 1 100 0 1 = 0 :=
  C6_wells_riley_monotone_and_guards (1/2) 1 1 1 2 1 100 1 1
    (by norm_num) (by norm_num) (by norm_num) (by norm_num) (by norm_num)
    (by norm_num) (by norm_num) (by norm_num) (by norm_num)

/-- C7 (counterexample): "zero household nodes ⇒ construction fails" is
not unconditional: with zero household nodes and zero population the
assignment loop never runs, so `GraphSimulation.__init__` completes
normally. -/
theorem C7_counterexample_empty_population :
    householdIdsOf cfgNoHH = [] ∧
      mkSimulation cfgNoHH rngZero = Except.ok (mkSimPure cfgNoHH rngZero) :=
  ⟨by decide, mkSimulation_eq_ok cfgNoHH rngZero (Or.inr personList_cfgNoHH)⟩

/-- C7 (amended): if the configuration yields zero household nodes and at
least one agent, construction raises (`ZeroDivisionError` from
`household_ids[i % 0]`), modelled as `Except.error`; the error is final —
nothing catches or retries it.  Whenever at least one household node
exists, construction completes and every agent's initial location is a
household node. -/
theorem C7_construction_households (cfg : Config) (r : Rng) :
    (householdIdsOf cfg = [] → 1 ≤ cfg.total_population →
      mkSimulation cfg r =
        Except.error "ZeroDivisionError: integer division or modulo by zero") ∧
    (householdIdsOf cfg ≠ [] →
      mkSimulation cfg r = Except.ok (mkSimPure cfg r) ∧
      ∀ p ∈ (mkSimPure cfg r).1.person_order,
        (mkSimPure cfg r).1.person_location p ∈ householdIdsOf cfg) := by
  constructor
  · intro hh hpop
    exact mkSimulation_err cfg r hh (personList_ne_nil cfg hpop)
  · intro hh
    refine ⟨mkSimulation_eq_ok cfg r (Or.inl hh), ?_⟩
    intro p hp
    rcases List.mem_map.1 hp with ⟨pr, hpr, hfst⟩
    have hmem := (assignPure_member (householdIdsOf cfg)
      (shuffle (personListOf cfg) r).1 0 (initAState cfg)
      (mk_order_nodup cfg r) pr hpr).2.2 hh
    rw [← hfst]
    exact hmem

/-- C7 witness. -/
theorem C7_construction_households_witness :
    mkSimulation cfgNoHHPop rngZero =
      Except.error "ZeroDivisionError: integer division or modulo by zero" ∧
    mkSimulation cfgH2 rngZero = Except.ok (mkSimPure cfgH2 rngZero) ∧
    (mkSimPure cfgH2 rngZero).1.person_location 0 ∈ householdIdsOf cfgH2 :=
  ⟨(C7_construction_households cfgNoHHPop rngZero).1 (by decide) (by decide),
   ((C7_construction_households cfgH2 rngZero).2 (by decide)).1,
   ((C7_construction_households cfgH2 rngZero).2 (by decide)).2 0
     (by simp only [mk_order_def, personList_cfgH2]; decide)⟩

/-- C8: with the random stream made explicit (the source draws from the
one process-global `random` stream), two simulations constructed from the
same configuration and the same stream state and run for the same number
of days produce identical history sequences. -/
theorem C8_determinism (cfg : Config) (r : Rng) (days : ℕ) (s1 s2 : Sim)
    (r1 r2 : Rng)
    (h1 : mkSimulation cfg r = Except.ok (s1, r1))
    (h2 : mkSimulation cfg r = Except.ok (s2, r2)) :
    (run_simulation s1 r1 days).1.simulation_history =
      (run_simulation s2 r2 days).1.simulation_history := by
  have e : ((s1, r1) : Sim × Rng) = (s2, r2) := Except.ok.inj (h1.symm.trans h2)
  injection e with ea eb
  rw [ea, eb]

/-- C8 witness. -/
theorem C8_determinism_witness :
    (run_simulation (mkSimPure cfgH2 rngZero).1 (mkSimPure cfgH2 rngZero).2
        3).1.simulation_history =
      (run_simulation (mkSimPure cfgH2 rngZero).1 (mkSimPure cfgH2 rngZero).2
        3).1.simulation_history :=
  C8_determinism cfgH2 rngZero 3 (mkSimPure cfgH2 rngZero).1
    (mkSimPure cfgH2 rngZero).1 (mkSimPure cfgH2 rngZero).2
    (mkSimPure cfgH2 rngZero).2
    (mkSimulation_eq_ok cfgH2 rngZero (Or.inl (by decide)))
    (mkSimulation_eq_ok cfgH2 rngZero (Or.inl (by decide)))

/-- C9: infection status is absorbing and monotone: each movement turn
leaves every status unchanged, `apply_infection` changes statuses only
from `non_infected` to `infected`, every whole run therefore only performs
that change (an `infected` agent stays `infected`), and no step adds or
removes agents (`person_order` is preserved). -/
theorem C9_status_absorbing_monotone :
    (∀ (s : Sim) (r : Rng), (turn1 s r).1.person_order = s.person_order ∧
      statusStep s.person_status (turn1 s r).1.person_status) ∧
    (∀ (s : Sim) (r : Rng), (turn2 s r).1.person_order = s.person_order ∧
      statusStep s.person_status (turn2 s r).1.person_status) ∧
    (∀ (s : Sim) (r : Rng), (turn3 s r).1.person_order = s.person_order ∧
      statusStep s.person_status (turn3 s r).1.person_status) ∧
    (∀ (s : Sim) (r : Rng), (apply_infection s r).1.person_order = s.person_order ∧
      statusStep s.person_status (apply_infection s r).1.person_status) ∧
    (∀ (s : Sim) (r : Rng) (days : ℕ),
      (run_simulation s r days).1.person_order = s.person_order ∧
      statusStep s.person_status (run_simulation s r days).1.person_status) := by
  refine ⟨?_, ?_, ?_, ?_, ?_⟩
  · intro s r
    exact ⟨(turn1_keeps s r).1.2.2.2.2.1, statusStep_of_eq (turn1_keeps s r).2.1⟩
  · intro s r
    exact ⟨(turn2_keeps s r).1.2.2.2.2.1, statusStep_of_eq (turn2_keeps s r).2.1⟩
  · intro s r
    exact ⟨(turn3_keeps s r).1.2.2.2.2.1, statusStep_of_eq (turn3_keeps s r).2.1⟩
  · intro s r
    exact ⟨(apply_infection_keeps s r).1.2.2.2.2.1, apply_infection_statusStep s r⟩
  · intro s r days
    have hc : sameCore (record_history 0 s) (runFrom (record_history 0 s, r) 1 days).1 :=
      runFrom_core days 1 (record_history 0 s, r)
    exact ⟨hc.2.2.2.2.1, runFrom_statusStep days 1 (record_history 0 s, r)⟩

/-- C10: occupancy consistency: after construction and after every
`apply_infection` step (which ends with
`_recalculate_node_populations`), every node's `people` dict holds
exactly the agents whose current location is that node, with their
current statuses, and the node's `infected`/`non_infected` population
counters count its occupants of each status. -/
theorem C10_occupancy_consistency :
    (∀ (cfg : Config) (r : Rng) (s : Sim) (r1 : Rng),
      mkSimulation cfg r = Except.ok (s, r1) → occConsistent s) ∧
    (∀ (s : Sim) (r : Rng), occConsistent (apply_infection s r).1) := by
  constructor
  · intro cfg r s r1 hok
    have hinv := mkSimulation_ok_inv cfg r (s, r1) hok
    have hs : s = (mkSimPure cfg r).1 := congrArg Prod.fst hinv
    rw [hs]
    exact mkSimPure_occ cfg r
  · exact apply_infection_occ

/-- C10 witness. -/
theorem C10_occupancy_consistency_witness :
    occConsistent (mkSimPure cfgH2 rngZero).1 ∧
      occConsistent (apply_infection simH2 rngZero).1 :=
  ⟨C10_occupancy_consistency.1 cfgH2 rngZero (mkSimPure cfgH2 rngZero).1
      (mkSimPure cfgH2 rngZero).2
      (mkSimulation_eq_ok cfgH2 rngZero (Or.inl (by decide))),
   C10_occupancy_consistency.2 simH2 rngZero⟩

end CitySim
